import Mathlib

/-!
# Verification development for the `pcl_viewer` repository

Shallow embedding of the repository's code:

* `src/example/main.cpp` — the `dataviz` example program (namespace `DV`):
  its `MajorSystem` particle integrator and main loop.
* `src/point_cloud_viewer_test.cpp` — the `point_cloud_viewer` test program
  (namespace `PC`): its near-duplicate `MajorSystem` and main loop.
* `src/point_cloud_viewer.cpp` — `pcl_viewer_create`, `pcl_viewer_should_close`,
  the `mvp` transform and `pcl_viewer_render_points`.
* `src/datviz.cpp` — `Library::mvp`, `ShaderProgram::init`, `datviz_global_init`.

Modelling conventions:

* The C++ code computes with IEEE `float`; the embedding idealizes the scalar
  type as `ℚ` (exact field arithmetic with a decidable order, mirroring the
  operations `+ - * / <` that the code performs).  `glm::normalize` divides a
  vector by `sqrt(dot v v)`; since a square root has no exact rational
  counterpart, the square-root function is passed as an explicit parameter
  `sqrtFn : ℚ → ℚ` to every definition that needs it.  Every general theorem
  below is proved for *all* `sqrtFn`; concrete evaluations use `sqrtTable`,
  a finite table that is exact (agrees with the real square root) on the
  inputs that arise there.
* GLFW/OpenGL calls are modelled by oracles (environment records of booleans
  for the success/failure results the code branches on) and by traces of the
  calls the code issues, in the order it issues them.
-/

/-- Total list indexing with an explicit default, modelling C++ `operator[]`
and pointer arithmetic into `std::vector` storage (every access made by the
embedded code is in bounds, so the default is never reached there). -/
def idx {α : Type} (d : α) : List α → ℕ → α
  | [], _ => d
  | a :: _, 0 => a
  | _ :: l, i + 1 => idx d l i

/-- `glm::vec3`, with `ℚ` idealizing `float`. -/
structure Vec3 where
  x : ℚ
  y : ℚ
  z : ℚ
deriving DecidableEq

/-- `glm::vec3(0, 0, 0)`. -/
def vzero : Vec3 := ⟨0, 0, 0⟩

/-- Componentwise vector addition (`glm` `operator+`). -/
def vadd (a b : Vec3) : Vec3 := ⟨a.x + b.x, a.y + b.y, a.z + b.z⟩

/-- Componentwise vector subtraction (`glm` `operator-`). -/
def vsub (a b : Vec3) : Vec3 := ⟨a.x - b.x, a.y - b.y, a.z - b.z⟩

/-- Scalar-vector multiplication (`glm` `operator*`). -/
def smul (c : ℚ) (v : Vec3) : Vec3 := ⟨c * v.x, c * v.y, c * v.z⟩

/-- `glm::dot`. -/
def dot (a b : Vec3) : ℚ := a.x * b.x + a.y * b.y + a.z * b.z

/-- `glm::normalize(v)`: `v` divided by its length `sqrt(dot(v, v))`, the
square root being supplied as `sqrtFn`. -/
def normalizeV (sqrtFn : ℚ → ℚ) (v : Vec3) : Vec3 := smul (1 / sqrtFn (dot v v)) v

/-- The inner `j`-loop of `MajorSystem::step`, identical letter for letter in
`src/example/main.cpp` (lines 62–82) and `src/point_cloud_viewer_test.cpp`
(lines 60–80) except for how `a_pos`/`b_pos` are fetched from storage, which
is abstracted as `pos`.  Starting from `force = vec3(0,0,0)`, for each
`j < particle_count`: skip `j == i` (`continue`); compute
`delta = b_pos - a_pos` and `distance_squared = dot(delta, delta)`; skip the
pair when `distance_squared < smooth` (`continue`); otherwise add
`normalize(b_pos - a_pos) * (1 / (distance_squared + smooth * smooth))`. -/
def forceLoop (sqrtFn : ℚ → ℚ) (smooth : ℚ) (pos : ℕ → Vec3) (n i : ℕ) : Vec3 :=
  (List.range n).foldl
    (fun force j =>
      if i = j then force
      else
        let delta := vsub (pos j) (pos i)
        let distance_squared := dot delta delta
        if distance_squared < smooth then force
        else
          vadd force
            (smul (1 / (distance_squared + smooth * smooth))
              (normalizeV sqrtFn (vsub (pos j) (pos i)))))
    vzero

namespace DV

/-- `dataviz_vertex` (`src/dataviz.hpp`): three `float` position coordinates
and four `unsigned char` color channels. -/
structure Vertex where
  x : ℚ
  y : ℚ
  z : ℚ
  r : ℕ
  g : ℕ
  b : ℕ
  a : ℕ
deriving DecidableEq

/-- Value-initialized `dataviz_vertex` (what `std::vector<dataviz_vertex_z>`
default-constructs); also the out-of-bounds default for `idx`. -/
def dfltVertex : Vertex := ⟨0, 0, 0, 0, 0, 0, 0⟩

/-- The `MajorSystem` state of `src/example/main.cpp`: a vector of vertex
structs (one struct per particle) and a vector of velocities. -/
structure MajorSystem where
  particles : List Vertex
  velocity : List Vec3
deriving DecidableEq

/-- `MajorSystem::size` in `src/example/main.cpp` line 45:
`particles_.size() / 6` — even though `particles_` here holds one *struct*
per particle, not six floats. -/
def MajorSystem.size (s : MajorSystem) : ℕ := s.particles.length / 6

/-- `a_pos` / `b_pos` of the step loop: the `glm::vec3` built from the
`x, y, z` fields of `particles_[i]`. -/
def posAt (s : MajorSystem) (i : ℕ) : Vec3 :=
  let a := idx dfltVertex s.particles i
  ⟨a.x, a.y, a.z⟩

/-- `velocity_[i]`. -/
def velAt (s : MajorSystem) (i : ℕ) : Vec3 := idx vzero s.velocity i

/-- The body of the outer `i`-loop of `MajorSystem::step` in
`src/example/main.cpp` lines 53–100: accumulate the pairwise force, set
`accel = force * gravity`,
`delta_p = (0.5 * time_delta * time_delta) * accel + time_delta * velocity_[i]`,
then produce `next_particles[i]` (the moved position with the `r, g, b, a`
channels copied) and `next_velocity[i] = velocity_[i] + accel * time_delta`. -/
def stepRow (sqrtFn : ℚ → ℚ) (s : MajorSystem) (time_delta gravity smooth : ℚ)
    (i : ℕ) : Vertex × Vec3 :=
  let a := idx dfltVertex s.particles i
  let force := forceLoop sqrtFn smooth (posAt s) s.size i
  let accel := smul gravity force
  let delta_p_1 := smul (1/2 * time_delta * time_delta) accel
  let delta_p_2 := smul time_delta (velAt s i)
  let delta_p := vadd delta_p_1 delta_p_2
  ((⟨a.x + delta_p.x, a.y + delta_p.y, a.z + delta_p.z, a.r, a.g, a.b, a.a⟩ : Vertex),
    vadd (velAt s i) (smul time_delta accel))

/-- `MajorSystem::step` in `src/example/main.cpp` lines 47–104: run `stepRow`
for each `i < particle_count` (with `particle_count = size()`), then replace
both vectors with the freshly built ones (of length `particle_count`). -/
def MajorSystem.step (sqrtFn : ℚ → ℚ) (s : MajorSystem)
    (time_delta gravity smooth : ℚ) : MajorSystem :=
  let particle_count := s.size
  { particles :=
      (List.range particle_count).map
        (fun i => (stepRow sqrtFn s time_delta gravity smooth i).1)
    velocity :=
      (List.range particle_count).map
        (fun i => (stepRow sqrtFn s time_delta gravity smooth i).2) }

/-- The particle positions of a `DV.MajorSystem`, as `glm::vec3` values (one
entry per stored vertex struct). -/
def positions (s : MajorSystem) : List Vec3 := s.particles.map (fun a => ⟨a.x, a.y, a.z⟩)

/-- The color data of a `DV.MajorSystem`: the `r, g, b, a` channels of each
stored vertex struct. -/
def colors (s : MajorSystem) : List (ℕ × ℕ × ℕ × ℕ) :=
  s.particles.map (fun a => (a.r, a.g, a.b, a.a))

/-- The `MajorSystem` constructor of `src/example/main.cpp` lines 22–41:
`particles_(size)` makes one vertex struct per particle, `velocity_` is
`size` zero vectors, and the loop fills `x, y, z` from the position
distribution, `r, g` from the color distribution, `b = 0`, `a = 255`.
The random draws are abstracted as the functions `px, py, pz, cr, cg`. -/
def initSystem (n : ℕ) (px py pz : ℕ → ℚ) (cr cg : ℕ → ℕ) : MajorSystem :=
  { particles := (List.range n).map (fun i => ⟨px i, py i, pz i, cr i, cg i, 0, 255⟩)
    velocity := List.replicate n vzero }

end DV

namespace PC

/-- The `MajorSystem` state of `src/point_cloud_viewer_test.cpp`: a flat
vector of floats (six per particle: x, y, z then three color floats) and a
vector of velocities. -/
structure MajorSystem where
  particles : List ℚ
  velocity : List Vec3
deriving DecidableEq

/-- `MajorSystem::size` in `src/point_cloud_viewer_test.cpp` line 43:
`particles_.size() / 6` (here `particles_` really is six floats per
particle). -/
def MajorSystem.size (s : MajorSystem) : ℕ := s.particles.length / 6

/-- `particles_[k]` in the flat float vector. -/
def pAt (s : MajorSystem) (k : ℕ) : ℚ := idx 0 s.particles k

/-- `a_pos` / `b_pos` of the step loop: `glm::vec3(a[0], a[1], a[2])` with
`a = particles_.data() + i * 6`. -/
def posAt (s : MajorSystem) (i : ℕ) : Vec3 :=
  ⟨pAt s (i * 6), pAt s (i * 6 + 1), pAt s (i * 6 + 2)⟩

/-- `velocity_[i]`. -/
def velAt (s : MajorSystem) (i : ℕ) : Vec3 := idx vzero s.velocity i

/-- The body of the outer `i`-loop of `MajorSystem::step` in
`src/point_cloud_viewer_test.cpp` lines 51–96: the same per-particle
computation as the `dataviz` example, producing the six floats written for
particle `i` (the moved `x, y, z` and the three copied color floats) and
`next_velocity[i]`. -/
def stepRow (sqrtFn : ℚ → ℚ) (s : MajorSystem) (time_delta gravity smooth : ℚ)
    (i : ℕ) : List ℚ × Vec3 :=
  let force := forceLoop sqrtFn smooth (posAt s) s.size i
  let accel := smul gravity force
  let delta_p_1 := smul (1/2 * time_delta * time_delta) accel
  let delta_p_2 := smul time_delta (velAt s i)
  let delta_p := vadd delta_p_1 delta_p_2
  ([pAt s (i * 6) + delta_p.x, pAt s (i * 6 + 1) + delta_p.y,
    pAt s (i * 6 + 2) + delta_p.z,
    pAt s (i * 6 + 3), pAt s (i * 6 + 4), pAt s (i * 6 + 5)],
    vadd (velAt s i) (smul time_delta accel))

/-- `MajorSystem::step` in `src/point_cloud_viewer_test.cpp` lines 45–102:
run `stepRow` for each `i < particle_count` (with
`particle_count = size()`), filling `next_particles` of length
`particle_count * 6`, then replace both vectors. -/
def MajorSystem.step (sqrtFn : ℚ → ℚ) (s : MajorSystem)
    (time_delta gravity smooth : ℚ) : MajorSystem :=
  let particle_count := s.size
  { particles :=
      ((List.range particle_count).map
        (fun i => (stepRow sqrtFn s time_delta gravity smooth i).1)).flatten
    velocity :=
      (List.range particle_count).map
        (fun i => (stepRow sqrtFn s time_delta gravity smooth i).2) }

/-- The particle positions of a `PC.MajorSystem` (one per particle counted by
`size()`). -/
def positions (s : MajorSystem) : List Vec3 := (List.range s.size).map (posAt s)

/-- The color data of a `PC.MajorSystem`: the three color floats of each
particle counted by `size()`. -/
def colors (s : MajorSystem) : List (ℚ × ℚ × ℚ) :=
  (List.range s.size).map (fun i => (pAt s (i * 6 + 3), pAt s (i * 6 + 4), pAt s (i * 6 + 5)))

/-- Restriction of a `PC.MajorSystem` to its first `k` particles. -/
def truncate (k : ℕ) (s : MajorSystem) : MajorSystem :=
  { particles := s.particles.take (k * 6)
    velocity := s.velocity.take k }

/-- The `MajorSystem` constructor of `src/point_cloud_viewer_test.cpp` lines
22–41: `particles_(size * 6)`, `velocity_` is `size` zero vectors, and the
loop fills slots `6i .. 6i+2` from the position distribution, `6i+3, 6i+4`
from the color distribution and `6i+5 = 0`.  The random draws are abstracted
as the functions `px, py, pz, cr, cg`. -/
def initSystem (n : ℕ) (px py pz cr cg : ℕ → ℚ) : MajorSystem :=
  { particles := ((List.range n).map (fun i => [px i, py i, pz i, cr i, cg i, 0])).flatten
    velocity := List.replicate n vzero }

end PC

/-- A square-root table used for concrete evaluations: exact (agrees with the
real square root) on the squared distances that occur in the concrete systems
below (`1/10000 = (1/100)²` and `1 = 1²`). -/
def sqrtTable (q : ℚ) : ℚ := if q = 1/10000 then 1/100 else if q = 1 then 1 else 0

/-- The force accumulation as claim C1 words it: *every* pair `j ≠ i`
contributes the unit vector from `i` toward `j` scaled by
`1 / (distance_squared + softening)` (softening constant `smooth * smooth`,
as in the code), with no pair left out of the sum.  This is the claim's
version, to be compared against the code's `forceLoop`. -/
def forceSpecAllPairs (sqrtFn : ℚ → ℚ) (smooth : ℚ) (pos : ℕ → Vec3) (n i : ℕ) : Vec3 :=
  (List.range n).foldl
    (fun force j =>
      if i = j then force
      else
        vadd force
          (smul (1 / (dot (vsub (pos j) (pos i)) (vsub (pos j) (pos i)) + smooth * smooth))
            (normalizeV sqrtFn (vsub (pos j) (pos i)))))
    vzero

/-- The mathematical core shared by the two `MajorSystem::step` versions:
the list of new positions
`pos[i] + (0.5 * dt * dt) * (gravity * force[i]) + dt * vel[i]`
for `i` below the particle count `n`. -/
def stepPos (sqrtFn : ℚ → ℚ) (dt g sm : ℚ) (pos vel : ℕ → Vec3) (n : ℕ) : List Vec3 :=
  (List.range n).map (fun i =>
    vadd (pos i)
      (vadd (smul (1/2 * dt * dt) (smul g (forceLoop sqrtFn sm pos n i)))
        (smul dt (vel i))))

/-- The mathematical core shared by the two `MajorSystem::step` versions:
the list of new velocities `vel[i] + dt * (gravity * force[i])` for `i`
below the particle count `n`. -/
def stepVel (sqrtFn : ℚ → ℚ) (dt g sm : ℚ) (pos vel : ℕ → Vec3) (n : ℕ) : List Vec3 :=
  (List.range n).map (fun i =>
    vadd (vel i) (smul dt (smul g (forceLoop sqrtFn sm pos n i))))

/-! ## Viewer state and the MVP transform (claims C4, C10) -/

/-- 4×4 `float` matrix (`glm::mat4`), idealized over `ℚ`. -/
abbrev Mat4 := Matrix (Fin 4) (Fin 4) ℚ

/-- A GLFW window, reduced to the state the embedded functions read: the
window-should-close flag that `glfwWindowShouldClose` reports. -/
structure GlfwWindow where
  shouldCloseFlag : Int

/-- `pcl_viewer_struct` (`src/point_cloud_viewer.cpp` lines 15–34), reduced to
the fields the embedded functions use: the window and the three transforms.
GL object ids (buffers, program, uniform location) are not state the claims
read. -/
structure pcl_viewer_struct where
  window : GlfwWindow
  projection_transform : Mat4
  view_transform : Mat4
  model_transform : Mat4

/-- `pcl_viewer_struct::mvp` (line 33):
`projection_transform * view_transform * model_transform`. -/
def pcl_viewer_struct.mvp (s : pcl_viewer_struct) : Mat4 :=
  s.projection_transform * s.view_transform * s.model_transform

/-- `pcl_viewer_set_model_transform` (lines 283–287). -/
def pcl_viewer_set_model_transform (s : pcl_viewer_struct) (m : Mat4) : pcl_viewer_struct :=
  { s with model_transform := m }

/-- `pcl_viewer_set_view_transform` (lines 289–293). -/
def pcl_viewer_set_view_transform (s : pcl_viewer_struct) (m : Mat4) : pcl_viewer_struct :=
  { s with view_transform := m }

/-- `pcl_viewer_set_projection_transform` (lines 301–305). -/
def pcl_viewer_set_projection_transform (s : pcl_viewer_struct) (m : Mat4) :
    pcl_viewer_struct :=
  { s with projection_transform := m }

/-- The matrix `pcl_viewer_render_points` (line 342) passes to
`glUniformMatrix4fv` as the `mvp` uniform: `viewer->mvp()`. -/
def pcl_render_points_uniform (s : pcl_viewer_struct) : Mat4 := s.mvp

/-- The `Library` class of `src/datviz.cpp` (lines 609–694), reduced to its
transform state. -/
structure Library where
  model_transform : Mat4
  view_transform : Mat4
  projection_transform : Mat4

/-- `Library::mvp` (`src/datviz.cpp` line 665):
`projection_transform_ * view_transform_ * model_transform_`. -/
def Library.mvp (s : Library) : Mat4 :=
  s.projection_transform * s.view_transform * s.model_transform

/-- `Library::set_model_transform` (line 631). -/
def Library.set_model_transform (s : Library) (m : Mat4) : Library :=
  { s with model_transform := m }

/-- `Library::set_view_transform` (line 633). -/
def Library.set_view_transform (s : Library) (m : Mat4) : Library :=
  { s with view_transform := m }

/-- `Library::set_projection_transform` (line 635). -/
def Library.set_projection_transform (s : Library) (m : Mat4) : Library :=
  { s with projection_transform := m }

/-- The matrix `Library::render_points` (line 659) hands to
`PointShaderProgram::render_points`, which passes it to `glUniformMatrix4fv`
as the `mvp` uniform (line 582): `mvp()`. -/
def datviz_render_points_uniform (s : Library) : Mat4 := s.mvp

/-- `pcl_viewer_should_close` (`src/point_cloud_viewer.cpp` lines 363–370):
`1` for a null viewer, otherwise the GLFW window-should-close flag of the
viewer's window. -/
def pcl_viewer_should_close : Option pcl_viewer_struct → Int
  | none => 1
  | some viewer => viewer.window.shouldCloseFlag

/-- `datviz_global_init` (`src/datviz.cpp` lines 931–935):
`glfwInit() != 0 ? -1 : 0`, the result of `glfwInit` being the parameter
(GLFW returns nonzero on success, `0` on failure). -/
def datviz_global_init (glfwInitResult : Int) : Int :=
  if glfwInitResult ≠ 0 then -1 else 0

/-! ## Main-loop traces (claim C5) -/

/-- The observable calls made by the example programs' main loops. -/
inductive Ev where
  | beginFrame
  | renderPoints
  | endFrame
  | pollInput
  | step
deriving DecidableEq

/-- One iteration of the `dataviz` example's main loop
(`src/example/main.cpp` lines 150–161): `datviz_begin_frame`,
`datviz_render_points(viewer, major_system.data(), point_count)`,
`datviz_end_frame`, `datviz_poll_input`, `major_system.step(1)`. -/
def dvIteration : List Ev := [.beginFrame, .renderPoints, .endFrame, .pollInput, .step]

/-- One iteration of the `point_cloud_viewer` test's main loop
(`src/point_cloud_viewer_test.cpp` lines 134–146): `pcl_viewer_begin_frame`,
`pcl_viewer_render_points`, `pcl_viewer_end_frame`, `pcl_viewer_poll_input`,
then `major_system.step(1e-1)` ten times (the inner `for` loop). -/
def pcIteration : List Ev :=
  [.beginFrame, .renderPoints, .endFrame, .pollInput] ++ List.replicate 10 .step

/-- The trace of `while (!should_close(viewer)) { iteration }`: `close k` is
the result of the `k`-th `should_close` check (nonzero ⇒ `true`); `fuel`
bounds the unrolling so the embedding stays total. -/
def mainLoopTrace (iteration : List Ev) (close : ℕ → Bool) : ℕ → ℕ → List Ev
  | 0, _ => []
  | fuel + 1, k =>
    if close k then [] else iteration ++ mainLoopTrace iteration close fuel (k + 1)

/-! ## Viewer creation and shader error handling (claim C6) -/

/-- The GLFW/OpenGL outcomes that `pcl_viewer_create` and
`ShaderProgram::init` branch on: whether `glfwInit` succeeds, whether
`glfwCreateWindow` returns a window, the two `GL_COMPILE_STATUS` results, the
`GL_LINK_STATUS` result, and whether the trailing `glGetError()` check in
`ShaderProgram::init` reports `GL_NO_ERROR`. -/
structure GLEnv where
  glfwInitOk : Bool
  windowOk : Bool
  vertCompileOk : Bool
  fragCompileOk : Bool
  linkOk : Bool
  glErrorFree : Bool
deriving DecidableEq

/-- The resource-relevant calls issued by `pcl_viewer_create` and
`ShaderProgram::init`, in program order. -/
inductive GLAct where
  | newViewer
  | createWindow
  | destroyWindow
  | freeViewer
  | genVertexArray
  | genBuffer
  | createShader
  | compileShader
  | deleteShader
  | createProgram
  | attachShader
  | linkProgram
  | detachShader
  | deleteProgram
  | useProgram
deriving DecidableEq

/-- `pcl_viewer_create` (`src/point_cloud_viewer.cpp` lines 140–237) as the
trace of calls it issues plus whether it returns a non-null viewer.
Window hints, callbacks, context and vertex-attribute setup calls that create
or destroy no resources are elided. -/
def pcl_viewer_create (env : GLEnv) : List GLAct × Bool :=
  if !env.glfwInitOk then ([], false)
  else
    let t0 : List GLAct := [.newViewer, .createWindow]
    if !env.windowOk then (t0 ++ [.freeViewer], false)
    else
      let t1 := t0 ++ [.genVertexArray, .genBuffer, .createShader, .createShader,
        .compileShader, .compileShader]
      if !(env.vertCompileOk && env.fragCompileOk) then
        (t1 ++ [.deleteShader, .deleteShader, .destroyWindow, .freeViewer], false)
      else
        let t2 := t1 ++ [.createProgram, .attachShader, .attachShader, .linkProgram,
          .detachShader, .detachShader, .deleteShader, .deleteShader]
        if !env.linkOk then
          (t2 ++ [.deleteProgram, .destroyWindow, .freeViewer], false)
        else
          (t2 ++ [.useProgram], true)

/-- `ShaderProgram::init` (`src/datviz.cpp` lines 443–471) as the trace of
calls it issues plus its return value: create/compile the vertex shader, on
compile failure clean it up and return `false`; create/compile the fragment
shader, on compile failure clean up both shaders and return `false`;
otherwise create the program, attach, link, detach, and return
`glGetError() == GL_NO_ERROR`. -/
def ShaderProgram_init (env : GLEnv) : List GLAct × Bool :=
  if !env.vertCompileOk then ([.createShader, .compileShader, .deleteShader], false)
  else if !env.fragCompileOk then
    ([.createShader, .compileShader, .createShader, .compileShader,
      .deleteShader, .deleteShader], false)
  else
    ([.createShader, .compileShader, .createShader, .compileShader, .createProgram,
      .attachShader, .attachShader, .linkProgram, .detachShader, .detachShader],
      env.glErrorFree)

/-! ## Concrete systems for witnesses and counterexamples -/

/-- Two positions at separation `1/100` (squared distance `1/10000`, below
the default `smooth = 1/1000`). -/
def posPairNear : ℕ → Vec3 := fun i => if i = 0 then vzero else ⟨1/100, 0, 0⟩

/-- A one-particle `dataviz`-example system: position `(0,0,0)`, colors
`(255, 255, 0, 255)`, velocity `(1,0,0)`. -/
def dvOne : DV.MajorSystem := ⟨[⟨0, 0, 0, 255, 255, 0, 255⟩], [⟨1, 0, 0⟩]⟩

/-- The `point_cloud_viewer`-test system corresponding to `dvOne`: one
particle at `(0,0,0)` with color floats `(1, 1, 0)`, velocity `(1,0,0)`. -/
def pcOne : PC.MajorSystem := ⟨[0, 0, 0, 1, 1, 0], [⟨1, 0, 0⟩]⟩

/-- A two-particle `point_cloud_viewer`-test system: particles at `(0,0,0)`
and `(1,0,0)` (squared distance `1`), both with zero velocity. -/
def pcTwo : PC.MajorSystem := ⟨[0, 0, 0, 1, 1, 0, 1, 0, 0, 1, 1, 0], [vzero, vzero]⟩

/-- A six-particle `dataviz`-example system (so that its `size()` is `1`):
particles at `(i, 0, 0)`, all with velocity `(1,0,0)`. -/
def dvSix : DV.MajorSystem :=
  ⟨[⟨0, 0, 0, 255, 255, 0, 255⟩, ⟨1, 0, 0, 255, 255, 0, 255⟩, ⟨2, 0, 0, 255, 255, 0, 255⟩,
    ⟨3, 0, 0, 255, 255, 0, 255⟩, ⟨4, 0, 0, 255, 255, 0, 255⟩, ⟨5, 0, 0, 255, 255, 0, 255⟩],
    [⟨1, 0, 0⟩, ⟨1, 0, 0⟩, ⟨1, 0, 0⟩, ⟨1, 0, 0⟩, ⟨1, 0, 0⟩, ⟨1, 0, 0⟩]⟩

/-- The `point_cloud_viewer`-test system with the same six particle positions
and velocities as `dvSix` (color floats `(1, 1, 0)`). -/
def pcSix : PC.MajorSystem :=
  ⟨[0, 0, 0, 1, 1, 0, 1, 0, 0, 1, 1, 0, 2, 0, 0, 1, 1, 0,
    3, 0, 0, 1, 1, 0, 4, 0, 0, 1, 1, 0, 5, 0, 0, 1, 1, 0],
    [⟨1, 0, 0⟩, ⟨1, 0, 0⟩, ⟨1, 0, 0⟩, ⟨1, 0, 0⟩, ⟨1, 0, 0⟩, ⟨1, 0, 0⟩]⟩

/-! ## Generic list lemmas -/

theorem idx_eq_getElem? {α : Type} (d : α) (l : List α) (i : ℕ) :
    idx d l i = l[i]?.getD d := by
  induction l generalizing i with
  | nil => cases i <;> rfl
  | cons a l ih =>
    cases i with
    | zero => simp [idx]
    | succ j => simpa [idx] using ih j

theorem idx_map {α β : Type} (f : α → β) (d : α) (l : List α) (i : ℕ) :
    idx (f d) (l.map f) i = f (idx d l i) := by
  rw [idx_eq_getElem?, idx_eq_getElem?, List.getElem?_map]
  cases l[i]? <;> rfl

theorem idx_range_map {β : Type} (f : ℕ → β) (d : β) {n i : ℕ} (h : i < n) :
    idx d ((List.range n).map f) i = f i := by
  rw [idx_eq_getElem?, List.getElem?_map, List.getElem?_range h]
  rfl

theorem idx_take {α : Type} (d : α) (l : List α) {k i : ℕ} (h : i < k) :
    idx d (l.take k) i = idx d l i := by
  rw [idx_eq_getElem?, idx_eq_getElem?, List.getElem?_take_of_lt h]

theorem idx_append_left {α : Type} (d : α) (l1 l2 : List α) {i : ℕ}
    (h : i < l1.length) : idx d (l1 ++ l2) i = idx d l1 i := by
  induction l1 generalizing i with
  | nil => exact absurd h (Nat.not_lt_zero i)
  | cons a l ih =>
    cases i with
    | zero => rfl
    | succ j => exact ih (by simpa using h)

theorem idx_append_len {α : Type} (d : α) (l1 l2 : List α) {n : ℕ} (i : ℕ)
    (hn : l1.length = n) : idx d (l1 ++ l2) (n + i) = idx d l2 i := by
  induction l1 generalizing n with
  | nil =>
    subst hn
    simp [idx]
  | cons a l ih =>
    cases n with
    | zero => simp at hn
    | succ m =>
      have : idx d (a :: (l ++ l2)) (m + i + 1) = idx d (l ++ l2) (m + i) := rfl
      rw [List.cons_append, show m + 1 + i = m + i + 1 by omega, this,
        ih (by simpa using hn)]

theorem flatten_idx6 (rows : List (List ℚ)) (h6 : ∀ r ∈ rows, r.length = 6)
    {i r : ℕ} (hr : r < 6) (hi : i < rows.length) :
    idx 0 rows.flatten (i * 6 + r) = idx 0 (idx [] rows i) r := by
  induction rows generalizing i with
  | nil => exact absurd hi (Nat.not_lt_zero i)
  | cons row rest ih =>
    have hlen : row.length = 6 := h6 row (by simp)
    cases i with
    | zero =>
      rw [show 0 * 6 + r = r by omega, List.flatten_cons,
        idx_append_left 0 row rest.flatten (by omega)]
      rfl
    | succ j =>
      rw [List.flatten_cons, show (j + 1) * 6 + r = 6 + (j * 6 + r) by ring,
        idx_append_len 0 row rest.flatten (j * 6 + r) hlen]
      exact ih (fun q hq => h6 q (List.mem_cons_of_mem _ hq)) (by simpa using hi)

theorem flatten_length_const6 (rows : List (List ℚ))
    (h6 : ∀ r ∈ rows, r.length = 6) : rows.flatten.length = 6 * rows.length := by
  induction rows with
  | nil => rfl
  | cons row rest ih =>
    have hlen : row.length = 6 := h6 row (by simp)
    have := ih (fun q hq => h6 q (List.mem_cons_of_mem _ hq))
    simp [List.flatten_cons, List.length_append, hlen, this]
    ring

theorem range_map_idx {α : Type} (d : α) (l : List α) {k : ℕ} (h : k ≤ l.length) :
    (List.range k).map (fun i => idx d l i) = l.take k := by
  induction k with
  | zero => simp
  | succ j ih =>
    have hj : j < l.length := by omega
    rw [List.range_succ, List.map_append, ih (by omega), List.take_succ]
    simp [List.getElem?_eq_getElem hj, idx_eq_getElem?]

theorem foldl_congr_mem {α β : Type} (l : List α) (f g : β → α → β) (b : β)
    (h : ∀ acc a, a ∈ l → f acc a = g acc a) : l.foldl f b = l.foldl g b := by
  induction l generalizing b with
  | nil => rfl
  | cons a l ih =>
    simp only [List.foldl_cons]
    rw [h b a (by simp)]
    exact ih _ (fun acc x hx => h acc x (by simp [hx]))

theorem foldl_skip_filter {α β : Type} (p : α → Bool) (f : β → α → β) (l : List α)
    (b : β) :
    l.foldl (fun acc a => if p a then f acc a else acc) b = (l.filter p).foldl f b := by
  induction l generalizing b with
  | nil => rfl
  | cons a l ih =>
    by_cases hp : p a
    · simp [List.filter_cons, hp, ih]
    · simp [List.filter_cons, hp, ih]

theorem forceLoop_congr (sqrtFn : ℚ → ℚ) (sm : ℚ) {pos pos2 : ℕ → Vec3} {n : ℕ}
    (h : ∀ j, j < n → pos j = pos2 j) {i : ℕ} (hi : i < n) :
    forceLoop sqrtFn sm pos n i = forceLoop sqrtFn sm pos2 n i := by
  unfold forceLoop
  exact foldl_congr_mem _ _ _ _
    (fun acc j hj => by simp only [h j (List.mem_range.mp hj), h i hi])

theorem range_map_comp_idx {α β : Type} (g : α → β) (d : α) (l : List α) {k : ℕ}
    (h : k ≤ l.length) :
    (List.range k).map (fun i => g (idx d l i)) = (l.map g).take k := by
  have h1 : (l.map g).take k = (l.take k).map g := (List.map_take g l k).symm
  rw [h1, ← range_map_idx d l h, List.map_map]
  rfl

/-! ## Relating the two steps to their common mathematical core -/

theorem dv_step_positions (sqrtFn : ℚ → ℚ) (s : DV.MajorSystem) (dt g sm : ℚ) :
    DV.positions (DV.MajorSystem.step sqrtFn s dt g sm) =
      stepPos sqrtFn dt g sm (DV.posAt s) (DV.velAt s) s.size := by
  simp only [DV.positions, DV.MajorSystem.step, stepPos, List.map_map]
  rfl

theorem dv_step_velocity (sqrtFn : ℚ → ℚ) (s : DV.MajorSystem) (dt g sm : ℚ) :
    (DV.MajorSystem.step sqrtFn s dt g sm).velocity =
      stepVel sqrtFn dt g sm (DV.posAt s) (DV.velAt s) s.size := rfl

theorem dv_step_colors (sqrtFn : ℚ → ℚ) (s : DV.MajorSystem) (dt g sm : ℚ) :
    DV.colors (DV.MajorSystem.step sqrtFn s dt g sm) =
      (DV.colors s).take s.size := by
  have h1 : DV.colors (DV.MajorSystem.step sqrtFn s dt g sm) =
      (List.range s.size).map
        (fun i => ((idx DV.dfltVertex s.particles i).r, (idx DV.dfltVertex s.particles i).g,
          (idx DV.dfltVertex s.particles i).b, (idx DV.dfltVertex s.particles i).a)) := by
    simp only [DV.colors, DV.MajorSystem.step, List.map_map]
    rfl
  rw [h1]
  exact range_map_comp_idx (fun a => (a.r, a.g, a.b, a.a)) DV.dfltVertex s.particles
    (Nat.div_le_self _ _)

theorem pc_rows_length6 (sqrtFn : ℚ → ℚ) (s : PC.MajorSystem) (dt g sm : ℚ) :
    ∀ r ∈ (List.range s.size).map (fun i => (PC.stepRow sqrtFn s dt g sm i).1),
      r.length = 6 := by
  intro r hr
  obtain ⟨i, -, rfl⟩ := List.mem_map.mp hr
  rfl

theorem pc_step_size (sqrtFn : ℚ → ℚ) (s : PC.MajorSystem) (dt g sm : ℚ) :
    (PC.MajorSystem.step sqrtFn s dt g sm).size = s.size := by
  show (((List.range s.size).map
      (fun i => (PC.stepRow sqrtFn s dt g sm i).1)).flatten).length / 6 = s.size
  rw [flatten_length_const6 _ (pc_rows_length6 sqrtFn s dt g sm)]
  simp only [List.length_map, List.length_range]
  omega

theorem pAt_flatten_rows (g : ℕ → List ℚ) (v : List Vec3) (k : ℕ)
    (h6 : ∀ j, (g j).length = 6) {i r : ℕ} (hi : i < k) (hr : r < 6) :
    PC.pAt ⟨((List.range k).map g).flatten, v⟩ (i * 6 + r) = idx 0 (g i) r := by
  simp only [PC.pAt]
  have hmem : ∀ q ∈ (List.range k).map g, q.length = 6 := by
    intro q hq
    obtain ⟨j, -, rfl⟩ := List.mem_map.mp hq
    exact h6 j
  have hl : i < ((List.range k).map g).length := by simpa using hi
  rw [flatten_idx6 _ hmem hr hl, idx_range_map g [] hi]

theorem pc_step_pAt (sqrtFn : ℚ → ℚ) (s : PC.MajorSystem) (dt g sm : ℚ) {i r : ℕ}
    (hi : i < s.size) (hr : r < 6) :
    PC.pAt (PC.MajorSystem.step sqrtFn s dt g sm) (i * 6 + r) =
      idx 0 (PC.stepRow sqrtFn s dt g sm i).1 r :=
  pAt_flatten_rows (fun j => (PC.stepRow sqrtFn s dt g sm j).1) _ s.size
    (fun _ => rfl) hi hr

theorem pc_step_positions (sqrtFn : ℚ → ℚ) (s : PC.MajorSystem) (dt g sm : ℚ) :
    PC.positions (PC.MajorSystem.step sqrtFn s dt g sm) =
      stepPos sqrtFn dt g sm (PC.posAt s) (PC.velAt s) s.size := by
  unfold PC.positions stepPos
  rw [pc_step_size]
  refine List.map_congr_left (fun i hi => ?_)
  have hi2 : i < s.size := List.mem_range.mp hi
  have e0 : PC.pAt (PC.MajorSystem.step sqrtFn s dt g sm) (i * 6) =
      idx 0 (PC.stepRow sqrtFn s dt g sm i).1 0 := by
    have h := pc_step_pAt sqrtFn s dt g sm hi2 (show 0 < 6 by omega)
    rwa [Nat.add_zero] at h
  have e1 := pc_step_pAt sqrtFn s dt g sm hi2 (show 1 < 6 by omega)
  have e2 := pc_step_pAt sqrtFn s dt g sm hi2 (show 2 < 6 by omega)
  show PC.posAt (PC.MajorSystem.step sqrtFn s dt g sm) i = _
  unfold PC.posAt
  rw [e0, e1, e2]
  rfl

theorem pc_step_velocity (sqrtFn : ℚ → ℚ) (s : PC.MajorSystem) (dt g sm : ℚ) :
    (PC.MajorSystem.step sqrtFn s dt g sm).velocity =
      stepVel sqrtFn dt g sm (PC.posAt s) (PC.velAt s) s.size := rfl

theorem pc_step_colors (sqrtFn : ℚ → ℚ) (s : PC.MajorSystem) (dt g sm : ℚ) :
    PC.colors (PC.MajorSystem.step sqrtFn s dt g sm) = PC.colors s := by
  unfold PC.colors
  rw [pc_step_size]
  refine List.map_congr_left (fun i hi => ?_)
  have hi2 : i < s.size := List.mem_range.mp hi
  rw [pc_step_pAt sqrtFn s dt g sm hi2 (show 3 < 6 by omega),
    pc_step_pAt sqrtFn s dt g sm hi2 (show 4 < 6 by omega),
    pc_step_pAt sqrtFn s dt g sm hi2 (show 5 < 6 by omega)]
  rfl

theorem stepPos_congr (sqrtFn : ℚ → ℚ) (dt g sm : ℚ) {pos pos2 vel vel2 : ℕ → Vec3}
    {n : ℕ} (hp : ∀ j, j < n → pos j = pos2 j) (hv : ∀ j, j < n → vel j = vel2 j) :
    stepPos sqrtFn dt g sm pos vel n = stepPos sqrtFn dt g sm pos2 vel2 n := by
  unfold stepPos
  refine List.map_congr_left (fun i hi => ?_)
  have hi2 : i < n := List.mem_range.mp hi
  rw [hp i hi2, hv i hi2, forceLoop_congr sqrtFn sm hp hi2]

theorem stepVel_congr (sqrtFn : ℚ → ℚ) (dt g sm : ℚ) {pos pos2 vel vel2 : ℕ → Vec3}
    {n : ℕ} (hp : ∀ j, j < n → pos j = pos2 j) (hv : ∀ j, j < n → vel j = vel2 j) :
    stepVel sqrtFn dt g sm pos vel n = stepVel sqrtFn dt g sm pos2 vel2 n := by
  unfold stepVel
  refine List.map_congr_left (fun i hi => ?_)
  have hi2 : i < n := List.mem_range.mp hi
  rw [hv i hi2, forceLoop_congr sqrtFn sm hp hi2]

/-! ## Truncation lemmas -/

theorem truncate_size (s : PC.MajorSystem) {k : ℕ} (h : k * 6 ≤ s.particles.length) :
    (PC.truncate k s).size = k := by
  simp only [PC.truncate, PC.MajorSystem.size, List.length_take]
  omega

theorem truncate_pAt (s : PC.MajorSystem) {k j : ℕ} (h : j < k * 6) :
    PC.pAt (PC.truncate k s) j = PC.pAt s j := by
  simp only [PC.pAt, PC.truncate]
  exact idx_take 0 s.particles h

theorem truncate_posAt (s : PC.MajorSystem) {k i : ℕ} (hi : i < k) :
    PC.posAt (PC.truncate k s) i = PC.posAt s i := by
  unfold PC.posAt
  rw [truncate_pAt s (by omega), truncate_pAt s (by omega), truncate_pAt s (by omega)]

theorem truncate_velAt (s : PC.MajorSystem) {k i : ℕ} (hi : i < k) :
    PC.velAt (PC.truncate k s) i = PC.velAt s i := by
  simp only [PC.velAt, PC.truncate]
  exact idx_take vzero s.velocity hi

/-! ## Linking stored positions to the position lists -/

theorem dv_idx_positions (s : DV.MajorSystem) (i : ℕ) :
    idx vzero (DV.positions s) i = DV.posAt s i := by
  unfold DV.positions DV.posAt
  exact idx_map (fun a => (⟨a.x, a.y, a.z⟩ : Vec3)) DV.dfltVertex s.particles i

theorem pc_idx_positions (s : PC.MajorSystem) {i : ℕ} (hi : i < s.size) :
    idx vzero (PC.positions s) i = PC.posAt s i := by
  unfold PC.positions
  exact idx_range_map (PC.posAt s) vzero hi

theorem dv_positions_length (s : DV.MajorSystem) :
    (DV.positions s).length = s.particles.length := by
  simp [DV.positions]

theorem pc_positions_length (s : PC.MajorSystem) :
    (PC.positions s).length = s.size := by
  simp [PC.positions]

/-! ## Claim theorems -/

/-- C9: `datviz_global_init` returns zero if and only if `glfwInit` failed
(returned `0`), and returns `-1` exactly when `glfwInit` succeeded
(returned nonzero) — so a zero return value signals failure, not success. -/
theorem c9_global_init_zero_signals_failure (r : Int) :
    (datviz_global_init r = 0 ↔ r = 0) ∧ (datviz_global_init r = -1 ↔ ¬ r = 0) := by
  unfold datviz_global_init
  by_cases h : r = 0 <;> simp [h]

/-- C10: `pcl_viewer_should_close` returns `1` (nonzero) on a null viewer
pointer, and for a non-null viewer returns the GLFW window-should-close flag
of the viewer's window. -/
theorem c10_should_close_null_and_flag :
    pcl_viewer_should_close none = 1 ∧ (1 : Int) ≠ 0 ∧
    ∀ viewer : pcl_viewer_struct,
      pcl_viewer_should_close (some viewer) = viewer.window.shouldCloseFlag :=
  ⟨rfl, by decide, fun _ => rfl⟩

/-- C4: in both libraries, the `mvp` uniform passed by `render_points` is the
matrix built from the user-supplied projection, view and model transforms as
`projection * view * model`, which (with glm's column-vector convention) is
exactly the composition that applies the model transform first, then the
view transform, then the projection transform to each vertex. -/
theorem c4_render_points_mvp (s0 : pcl_viewer_struct) (t0 : Library)
    (P V M : Mat4) (v : Fin 4 → ℚ) :
    pcl_render_points_uniform
        (pcl_viewer_set_model_transform
          (pcl_viewer_set_view_transform
            (pcl_viewer_set_projection_transform s0 P) V) M) = P * V * M ∧
    Matrix.mulVec
        (pcl_render_points_uniform
          (pcl_viewer_set_model_transform
            (pcl_viewer_set_view_transform
              (pcl_viewer_set_projection_transform s0 P) V) M)) v =
      Matrix.mulVec P (Matrix.mulVec V (Matrix.mulVec M v)) ∧
    datviz_render_points_uniform
        (Library.set_model_transform
          (Library.set_view_transform
            (Library.set_projection_transform t0 P) V) M) = P * V * M ∧
    Matrix.mulVec
        (datviz_render_points_uniform
          (Library.set_model_transform
            (Library.set_view_transform
              (Library.set_projection_transform t0 P) V) M)) v =
      Matrix.mulVec P (Matrix.mulVec V (Matrix.mulVec M v)) := by
  refine ⟨rfl, ?_, rfl, ?_⟩ <;>
    · show Matrix.mulVec (P * V * M) v = _
      rw [Matrix.mulVec_mulVec, Matrix.mulVec_mulVec]

/-- C8: the particle count.  In the `point_cloud_viewer` test program,
`size()` returns the constructor argument `n` and is invariant under
`step()`.  In the `dataviz` example program, `size()` returns `n / 6`
(the copy-paste slip of dividing a count of vertex *structs* by 6) and each
`step()` divides the count by 6 again — the claimed invariant fails there. -/
theorem c8_size_bug (n : ℕ) (px py pz : ℕ → ℚ) (cr cg : ℕ → ℕ)
    (qx qy qz qr qg : ℕ → ℚ) (sqrtFn : ℚ → ℚ) (dv : DV.MajorSystem)
    (pc : PC.MajorSystem) (dt g sm : ℚ) :
    (DV.initSystem n px py pz cr cg).size = n / 6 ∧
    (DV.MajorSystem.step sqrtFn dv dt g sm).size = dv.size / 6 ∧
    (PC.initSystem n qx qy qz qr qg).size = n ∧
    (PC.MajorSystem.step sqrtFn pc dt g sm).size = pc.size := by
  refine ⟨?_, ?_, ?_, pc_step_size sqrtFn pc dt g sm⟩
  · simp [DV.initSystem, DV.MajorSystem.size]
  · show ((List.range dv.size).map
        (fun i => (DV.stepRow sqrtFn dv dt g sm i).1)).length / 6 = dv.size / 6
    simp
  · show (((List.range n).map
        (fun i => [qx i, qy i, qz i, qr i, qg i, 0])).flatten).length / 6 = n
    rw [flatten_length_const6]
    · simp only [List.length_map, List.length_range]
      omega
    · intro r hr
      obtain ⟨i, -, rfl⟩ := List.mem_map.mp hr
      rfl

/-- C7 counterexample: stepping the one-particle `dataviz`-example system
`dvOne` does *not* leave its color data equal — the particle is dropped
entirely (`size()` is `1 / 6 = 0`), so the color list goes from one entry to
empty. -/
theorem c7_counterexample :
    DV.colors (DV.MajorSystem.step sqrtTable dvOne 1 1 (1/1000)) ≠ DV.colors dvOne := by
  decide

/-- C7 amended: `MajorSystem::step` copies color data exactly for every
particle it keeps.  In the `point_cloud_viewer` test program that is every
particle, so the color data is exactly equal before and after the step; in
the `dataviz` example program only the first `size()` (= `n / 6`) particles
survive a step, and those keep their colors exactly. -/
theorem c7_amended (sqrtFn : ℚ → ℚ) (dv : DV.MajorSystem) (pc : PC.MajorSystem)
    (dt g sm : ℚ) :
    PC.colors (PC.MajorSystem.step sqrtFn pc dt g sm) = PC.colors pc ∧
    DV.colors (DV.MajorSystem.step sqrtFn dv dt g sm) = (DV.colors dv).take dv.size :=
  ⟨pc_step_colors sqrtFn pc dt g sm, dv_step_colors sqrtFn dv dt g sm⟩

/-- C1 counterexample: two particles at separation `1/100` (squared distance
`1/10000`, which is below `smooth = 1/1000`).  The step's force loop leaves
the pair out entirely and accumulates zero force, whereas the claim's
all-pairs softened sum is nonzero — near-singular separations are skipped,
not clamped. -/
theorem c1_counterexample :
    forceLoop sqrtTable (1/1000) posPairNear 2 0 = vzero ∧
    forceSpecAllPairs sqrtTable (1/1000) posPairNear 2 0 ≠ vzero := by
  constructor
  · norm_num [forceLoop, posPairNear, List.range_succ, vzero, vadd, vsub, smul, dot,
      normalizeV, sqrtTable]
  · norm_num [forceSpecAllPairs, posPairNear, List.range_succ, vzero, vadd, vsub, smul,
      dot, normalizeV, sqrtTable, Vec3.mk.injEq]

/-- C1 amended: the force accumulated by `MajorSystem::step` on particle `i`
is the sum of inverse-square-law contributions over exactly those `j ≠ i`
whose squared distance is at least `smooth`; each such pair contributes the
unit vector from `i` toward `j` scaled by
`1 / (distance_squared + smooth * smooth)`, and pairs with squared distance
below `smooth` are left out of the sum entirely (not clamped). -/
theorem c1_amended (sqrtFn : ℚ → ℚ) (smooth : ℚ) (pos : ℕ → Vec3) (n i : ℕ) :
    forceLoop sqrtFn smooth pos n i =
      ((List.range n).filter (fun j =>
          decide (i ≠ j) &&
          decide (¬ dot (vsub (pos j) (pos i)) (vsub (pos j) (pos i)) < smooth))).foldl
        (fun force j =>
          vadd force
            (smul (1 / (dot (vsub (pos j) (pos i)) (vsub (pos j) (pos i)) + smooth * smooth))
              (normalizeV sqrtFn (vsub (pos j) (pos i)))))
        vzero := by
  unfold forceLoop
  rw [← foldl_skip_filter]
  refine foldl_congr_mem _ _ _ _ (fun acc j hj => ?_)
  by_cases h1 : i = j
  · simp [h1]
  · by_cases h2 : dot (vsub (pos j) (pos i)) (vsub (pos j) (pos i)) < smooth
    · simp [h1, h2]
    · simp [h1, h2]

/-- The loop `while (!should_close) { iteration }`, unrolled: if the first
`m` should-close checks report "keep running" and the `m`-th reports
"close", the trace is exactly `m` whole iteration blocks — in particular
nothing at all is executed after the check that reported "close". -/
theorem mainLoopTrace_eq_blocks (it : List Ev) (close : ℕ → Bool) :
    ∀ (m fuel k : ℕ), m < fuel → (∀ j, j < m → close (k + j) = false) →
      close (k + m) = true →
      mainLoopTrace it close fuel k = (List.replicate m it).flatten := by
  intro m
  induction m with
  | zero =>
    intro fuel k hf h0 hm
    cases fuel with
    | zero => omega
    | succ f => simp [mainLoopTrace, show close k = true from by simpa using hm]
  | succ m ih =>
    intro fuel k hf h0 hm
    cases fuel with
    | zero => omega
    | succ f =>
      have hk : close k = false := by simpa using h0 0 (by omega)
      have hrest : mainLoopTrace it close f (k + 1) = (List.replicate m it).flatten := by
        refine ih f (k + 1) (by omega) (fun j hj => ?_) ?_
        · have h := h0 (j + 1) (by omega)
          rwa [show k + (j + 1) = k + 1 + j by omega] at h
        · rwa [show k + (m + 1) = k + 1 + m by omega] at hm
      simp [mainLoopTrace, hk, hrest, List.replicate_succ, List.flatten_cons]

/-- C5: in both example programs, when the first `m` should-close checks say
"keep running" and the `m`-th says "close", the main loop's trace is exactly
`m` repetitions of the iteration block — `begin_frame`, `render_points`,
`end_frame`, `poll_input`, then the integrator's step (once in the `dataviz`
example, ten times in the `point_cloud_viewer` test) — so every iteration
performs the calls in that order and no `begin_frame`/`render_points`/
`end_frame` occurs after `should_close` has reported close. -/
theorem c5_main_loop_order (close : ℕ → Bool) (m fuel : ℕ) (hf : m < fuel)
    (h0 : ∀ j, j < m → close j = false) (hm : close m = true) :
    mainLoopTrace dvIteration close fuel 0 = (List.replicate m dvIteration).flatten ∧
    mainLoopTrace pcIteration close fuel 0 = (List.replicate m pcIteration).flatten := by
  constructor <;>
    exact mainLoopTrace_eq_blocks _ close m fuel 0 hf
      (fun j hj => by simpa using h0 j hj) (by simpa using hm)

/-- Witness for C5 at the concrete close schedule "close on the third check"
(`close k = decide (2 ≤ k)`, `m = 2`, `fuel = 5`). -/
theorem c5_witness :
    mainLoopTrace dvIteration (fun k => decide (2 ≤ k)) 5 0 =
      (List.replicate 2 dvIteration).flatten ∧
    mainLoopTrace pcIteration (fun k => decide (2 ≤ k)) 5 0 =
      (List.replicate 2 pcIteration).flatten :=
  c5_main_loop_order (fun k => decide (2 ≤ k)) 2 5 (by decide)
    (fun j hj => by
      interval_cases j <;> decide)
    (by decide)

/-- C6: whenever `pcl_viewer_create` gets past window creation but either
shader compilation or program linking fails, it returns a null viewer after
deleting every shader and program it created, destroying the window it
created and freeing the viewer struct it allocated; and whenever a shader
compilation fails, the `datviz` `ShaderProgram::init` returns `false` after
deleting every shader it created. -/
theorem c6_create_fails_clean (env : GLEnv)
    (hg : env.glfwInitOk = true) (hw : env.windowOk = true)
    (hfail : env.vertCompileOk = false ∨ env.fragCompileOk = false ∨
      env.linkOk = false) :
    ((pcl_viewer_create env).2 = false ∧
      (pcl_viewer_create env).1.count GLAct.createShader =
        (pcl_viewer_create env).1.count GLAct.deleteShader ∧
      (pcl_viewer_create env).1.count GLAct.createProgram =
        (pcl_viewer_create env).1.count GLAct.deleteProgram ∧
      GLAct.destroyWindow ∈ (pcl_viewer_create env).1 ∧
      (pcl_viewer_create env).1.count GLAct.newViewer =
        (pcl_viewer_create env).1.count GLAct.freeViewer) ∧
    ((env.vertCompileOk = false ∨ env.fragCompileOk = false) →
      (ShaderProgram_init env).2 = false ∧
      (ShaderProgram_init env).1.count GLAct.createShader =
        (ShaderProgram_init env).1.count GLAct.deleteShader) := by
  obtain ⟨g1, g2, g3, g4, g5, g6⟩ := env
  revert hg hw hfail
  cases g1 <;> cases g2 <;> cases g3 <;> cases g4 <;> cases g5 <;> cases g6 <;> decide

/-- Witness for C6 at the concrete environment where the vertex shader fails
to compile (window creation succeeded). -/
theorem c6_witness :
    ((pcl_viewer_create ⟨true, true, false, true, true, true⟩).2 = false ∧
      (pcl_viewer_create ⟨true, true, false, true, true, true⟩).1.count
          GLAct.createShader =
        (pcl_viewer_create ⟨true, true, false, true, true, true⟩).1.count
          GLAct.deleteShader ∧
      (pcl_viewer_create ⟨true, true, false, true, true, true⟩).1.count
          GLAct.createProgram =
        (pcl_viewer_create ⟨true, true, false, true, true, true⟩).1.count
          GLAct.deleteProgram ∧
      GLAct.destroyWindow ∈ (pcl_viewer_create ⟨true, true, false, true, true, true⟩).1 ∧
      (pcl_viewer_create ⟨true, true, false, true, true, true⟩).1.count
          GLAct.newViewer =
        (pcl_viewer_create ⟨true, true, false, true, true, true⟩).1.count
          GLAct.freeViewer) ∧
    ((ShaderProgram_init ⟨true, true, false, true, true, true⟩).2 = false ∧
      (ShaderProgram_init ⟨true, true, false, true, true, true⟩).1.count
          GLAct.createShader =
        (ShaderProgram_init ⟨true, true, false, true, true, true⟩).1.count
          GLAct.deleteShader) :=
  ⟨(c6_create_fails_clean ⟨true, true, false, true, true, true⟩ rfl rfl (Or.inl rfl)).1,
    (c6_create_fails_clean ⟨true, true, false, true, true, true⟩ rfl rfl
      (Or.inl rfl)).2 (Or.inl rfl)⟩

/-- C2 amended: for every particle index `i` below the step's
`particle_count` (= `size()`), `MajorSystem::step` sets, in both programs,
the new velocity to `velocity + (force * gravity) * time_delta` (as the
claim says) but the new position to
`position + time_delta * velocity + (0.5 * time_delta²) * (force * gravity)`
— a kinematic update with an extra half-acceleration term, not the pure
explicit-Euler `position + velocity * time_delta`. -/
theorem c2_amended (sqrtFn : ℚ → ℚ) (dt g sm : ℚ) (dv : DV.MajorSystem)
    (pc : PC.MajorSystem) (i : ℕ) (hdv : i < dv.size) (hpc : i < pc.size) :
    (DV.posAt (DV.MajorSystem.step sqrtFn dv dt g sm) i =
      vadd (DV.posAt dv i)
        (vadd (smul (1/2 * dt * dt) (smul g (forceLoop sqrtFn sm (DV.posAt dv) dv.size i)))
          (smul dt (DV.velAt dv i)))) ∧
    (DV.velAt (DV.MajorSystem.step sqrtFn dv dt g sm) i =
      vadd (DV.velAt dv i)
        (smul dt (smul g (forceLoop sqrtFn sm (DV.posAt dv) dv.size i)))) ∧
    (PC.posAt (PC.MajorSystem.step sqrtFn pc dt g sm) i =
      vadd (PC.posAt pc i)
        (vadd (smul (1/2 * dt * dt) (smul g (forceLoop sqrtFn sm (PC.posAt pc) pc.size i)))
          (smul dt (PC.velAt pc i)))) ∧
    (PC.velAt (PC.MajorSystem.step sqrtFn pc dt g sm) i =
      vadd (PC.velAt pc i)
        (smul dt (smul g (forceLoop sqrtFn sm (PC.posAt pc) pc.size i)))) := by
  refine ⟨?_, ?_, ?_, ?_⟩
  · rw [← dv_idx_positions, dv_step_positions]
    unfold stepPos
    rw [idx_range_map _ _ hdv]
  · unfold DV.velAt
    rw [dv_step_velocity]
    unfold stepVel
    rw [idx_range_map _ _ hdv]
    rfl
  · have hsz : i < (PC.MajorSystem.step sqrtFn pc dt g sm).size := by
      rw [pc_step_size]
      exact hpc
    rw [← pc_idx_positions _ hsz, pc_step_positions]
    unfold stepPos
    rw [idx_range_map _ _ hpc]
  · unfold PC.velAt
    rw [pc_step_velocity]
    unfold stepVel
    rw [idx_range_map _ _ hpc]
    rfl

/-- Witness for C2 at `sqrtTable`, `dt = g = 1`, `sm = 1/1000`, the concrete
systems `dvSix` (six particles, so `size() = 1`) and `pcOne` (one particle),
particle index `0`. -/
theorem c2_witness :
    (DV.posAt (DV.MajorSystem.step sqrtTable dvSix 1 1 (1/1000)) 0 =
      vadd (DV.posAt dvSix 0)
        (vadd (smul (1/2 * 1 * 1)
            (smul 1 (forceLoop sqrtTable (1/1000) (DV.posAt dvSix) dvSix.size 0)))
          (smul 1 (DV.velAt dvSix 0)))) ∧
    (DV.velAt (DV.MajorSystem.step sqrtTable dvSix 1 1 (1/1000)) 0 =
      vadd (DV.velAt dvSix 0)
        (smul 1 (smul 1 (forceLoop sqrtTable (1/1000) (DV.posAt dvSix) dvSix.size 0)))) ∧
    (PC.posAt (PC.MajorSystem.step sqrtTable pcOne 1 1 (1/1000)) 0 =
      vadd (PC.posAt pcOne 0)
        (vadd (smul (1/2 * 1 * 1)
            (smul 1 (forceLoop sqrtTable (1/1000) (PC.posAt pcOne) pcOne.size 0)))
          (smul 1 (PC.velAt pcOne 0)))) ∧
    (PC.velAt (PC.MajorSystem.step sqrtTable pcOne 1 1 (1/1000)) 0 =
      vadd (PC.velAt pcOne 0)
        (smul 1 (smul 1 (forceLoop sqrtTable (1/1000) (PC.posAt pcOne) pcOne.size 0)))) :=
  c2_amended sqrtTable 1 1 (1/1000) dvSix pcOne 0 (by decide) (by decide)

/-- C2 counterexample: on the two-particle system `pcTwo` (separation `1`,
zero velocities) with `time_delta = gravity = 1`, `smooth = 1/1000`, the new
position of particle `0` equals neither `position + old_velocity * dt` nor
`position + new_velocity * dt`: the step moves it by the extra
`0.5 * dt² * accel` term, so the position update is not explicit Euler. -/
theorem c2_counterexample :
    PC.posAt (PC.MajorSystem.step sqrtTable pcTwo 1 1 (1/1000)) 0 ≠
      vadd (PC.posAt pcTwo 0) (smul 1 (PC.velAt pcTwo 0)) ∧
    PC.posAt (PC.MajorSystem.step sqrtTable pcTwo 1 1 (1/1000)) 0 ≠
      vadd (PC.posAt pcTwo 0)
        (smul 1 (PC.velAt (PC.MajorSystem.step sqrtTable pcTwo 1 1 (1/1000)) 0)) := by
  have h0 : (0 : ℕ) < pcTwo.size := by decide
  have hstep : PC.posAt (PC.MajorSystem.step sqrtTable pcTwo 1 1 (1/1000)) 0 =
      vadd (PC.posAt pcTwo 0)
        (vadd (smul (1/2 * 1 * 1)
            (smul 1 (forceLoop sqrtTable (1/1000) (PC.posAt pcTwo) pcTwo.size 0)))
          (smul 1 (PC.velAt pcTwo 0))) := by
    have hsz : (0 : ℕ) < (PC.MajorSystem.step sqrtTable pcTwo 1 1 (1/1000)).size := by
      rw [pc_step_size]
      exact h0
    rw [← pc_idx_positions _ hsz, pc_step_positions]
    unfold stepPos
    rw [idx_range_map _ _ h0]
  have hstepv : PC.velAt (PC.MajorSystem.step sqrtTable pcTwo 1 1 (1/1000)) 0 =
      vadd (PC.velAt pcTwo 0)
        (smul 1 (smul 1 (forceLoop sqrtTable (1/1000) (PC.posAt pcTwo) pcTwo.size 0))) := by
    unfold PC.velAt
    rw [pc_step_velocity]
    unfold stepVel
    rw [idx_range_map _ _ h0]
    rfl
  have hF : forceLoop sqrtTable (1/1000) (PC.posAt pcTwo) pcTwo.size 0 =
      ⟨1000000/1000001, 0, 0⟩ := by
    norm_num [forceLoop, PC.posAt, PC.pAt, PC.MajorSystem.size, pcTwo, idx,
      List.range_succ, vzero, vadd, vsub, smul, dot, normalizeV, sqrtTable]
  have hp0 : PC.posAt pcTwo 0 = vzero := rfl
  have hv0 : PC.velAt pcTwo 0 = vzero := rfl
  constructor
  · rw [hstep, hF, hp0, hv0]
    norm_num [vadd, smul, vzero, Vec3.mk.injEq]
  · rw [hstep, hstepv, hF, hp0, hv0]
    norm_num [vadd, smul, vzero, Vec3.mk.injEq]

/-- C3 counterexample: `dvOne` and `pcOne` hold equal particle positions and
equal velocities, yet one step (same `time_delta = 1`, `gravity = 1`,
`smooth = 1/1000`) leaves the two systems with different position lists: the
`dataviz` example's `size()` is `1 / 6 = 0`, so its step drops the particle,
while the `point_cloud_viewer` test's step moves it. -/
theorem c3_counterexample :
    DV.positions dvOne = PC.positions pcOne ∧
    dvOne.velocity = pcOne.velocity ∧
    DV.positions (DV.MajorSystem.step sqrtTable dvOne 1 1 (1/1000)) ≠
      PC.positions (PC.MajorSystem.step sqrtTable pcOne 1 1 (1/1000)) := by
  refine ⟨rfl, rfl, fun heq => ?_⟩
  have hlen := congrArg List.length heq
  rw [pc_positions_length, pc_step_size] at hlen
  have hnil : DV.positions (DV.MajorSystem.step sqrtTable dvOne 1 1 (1/1000)) = [] := rfl
  rw [hnil] at hlen
  exact absurd hlen (by decide)

/-- C3 amended: the per-particle integration math of the two
`MajorSystem::step` versions is identical, but the `dataviz` example's
`size()` divides its particle count by 6, so its step only simulates and
keeps the first `size()` particles.  Equivalence holds modulo that
truncation: on states with equal positions and equal velocities, one
`dataviz` step produces exactly the positions and velocities of one
`point_cloud_viewer` step applied to the restriction of the state to its
first `size()` (= `n / 6`) particles. -/
theorem c3_amended (sqrtFn : ℚ → ℚ) (dt g sm : ℚ) (dv : DV.MajorSystem)
    (pc : PC.MajorSystem) (hpos : DV.positions dv = PC.positions pc)
    (hvel : dv.velocity = pc.velocity) :
    DV.positions (DV.MajorSystem.step sqrtFn dv dt g sm) =
      PC.positions (PC.MajorSystem.step sqrtFn (PC.truncate dv.size pc) dt g sm) ∧
    (DV.MajorSystem.step sqrtFn dv dt g sm).velocity =
      (PC.MajorSystem.step sqrtFn (PC.truncate dv.size pc) dt g sm).velocity := by
  have hm : pc.particles.length / 6 = dv.particles.length := by
    have h1 := congrArg List.length hpos
    rw [dv_positions_length, pc_positions_length] at h1
    exact h1.symm
  have hk6 : dv.size * 6 ≤ pc.particles.length := by
    show dv.particles.length / 6 * 6 ≤ pc.particles.length
    omega
  have hts : (PC.truncate dv.size pc).size = dv.size := truncate_size pc hk6
  have hszpc : dv.size ≤ pc.size := by
    show dv.particles.length / 6 ≤ pc.particles.length / 6
    omega
  have hpos2 : ∀ j, j < dv.size → DV.posAt dv j = PC.posAt (PC.truncate dv.size pc) j := by
    intro j hj
    rw [truncate_posAt pc hj, ← pc_idx_positions pc (lt_of_lt_of_le hj hszpc), ← hpos,
      dv_idx_positions]
  have hvel2 : ∀ j, j < dv.size → DV.velAt dv j = PC.velAt (PC.truncate dv.size pc) j := by
    intro j hj
    rw [truncate_velAt pc hj]
    unfold DV.velAt PC.velAt
    rw [hvel]
  constructor
  · rw [dv_step_positions, pc_step_positions, hts]
    exact stepPos_congr sqrtFn dt g sm hpos2 hvel2
  · rw [dv_step_velocity, pc_step_velocity, hts]
    exact stepVel_congr sqrtFn dt g sm hpos2 hvel2

/-- Witness for C3 at the corresponding six-particle systems `dvSix` and
`pcSix` (equal positions `(i,0,0)` and equal velocities `(1,0,0)`). -/
theorem c3_witness :
    DV.positions (DV.MajorSystem.step sqrtTable dvSix 1 1 (1/1000)) =
      PC.positions (PC.MajorSystem.step sqrtTable
        (PC.truncate dvSix.size pcSix) 1 1 (1/1000)) ∧
    (DV.MajorSystem.step sqrtTable dvSix 1 1 (1/1000)).velocity =
      (PC.MajorSystem.step sqrtTable (PC.truncate dvSix.size pcSix) 1 1 (1/1000)).velocity :=
  c3_amended sqrtTable 1 1 (1/1000) dvSix pcSix rfl rfl
